import Mathlib

/-!
# Verification of the mfinance interactive TUI core

Shallow embedding of the interactive navigation-and-editing state machine of
the `mfinance` ledger browser (`src/tui.rs`, with the entry store helpers of
`src/lib.rs` and the display formatter of `src/number_formatter.rs`).

Modelling conventions:
* `rust_decimal::Decimal` amounts are modelled as `Rat` (exact arithmetic;
  the 96-bit mantissa overflow of the library is out of scope).
* `usize` arithmetic that can underflow is modelled by `usizeWrapSub`
  (two's-complement wrap-around, the release-build semantics; debug builds
  panic at the same spot).
* File I/O is modelled by an explicit association list `FileSys` from file
  names to their parsed entry lists; fallible writes take an explicit
  `writeOk` flag plus an error string standing for the I/O error display.
* `tui_input::Input` is modelled by its string value; the cursor always sits
  at the end because the dispatcher forwards only character and backspace
  keys to the input fields.
* Functions that can panic in Rust return `Option`, with `none` marking the
  panic (out-of-bounds indexing, byte-slicing off a char boundary).
-/

/-- A calendar date, the model of `chrono::NaiveDate`. -/
structure Date where
  year : Int
  month : Nat
  day : Nat
deriving DecidableEq, Repr

/-- Gregorian leap-year rule used by `chrono` for date validity. -/
def isLeapYear (y : Int) : Bool :=
  (y % 4 == 0 && y % 100 != 0) || y % 400 == 0

/-- Number of days of month `m` of year `y` (0 for an invalid month). -/
def daysInMonth (y : Int) : Nat → Nat
  | 1 => 31
  | 2 => if isLeapYear y then 29 else 28
  | 3 => 31
  | 4 => 30
  | 5 => 31
  | 6 => 30
  | 7 => 31
  | 8 => 31
  | 9 => 30
  | 10 => 31
  | 11 => 30
  | 12 => 31
  | _ => 0

/-- Value of a non-empty list of decimal digit characters. -/
def digitsVal (cs : List Char) : Option Nat :=
  if cs ≠ [] ∧ cs.all Char.isDigit then
    some (cs.foldl (fun a c => a * 10 + (c.toNat - '0'.toNat)) 0)
  else
    none

/-- Model of parsing a date string in `%Y-%m-%d` form, as done both by
`entry.date.parse::<NaiveDate>()` in `ReportViewModel::new` and by
`NaiveDate::parse_from_str(.., "%Y-%m-%d")` in `handle_saving_popup_entry`:
an optionally signed year, two-digit-at-most month and day separated by
dashes, validated against the Gregorian calendar. -/
def parseDate (s : String) : Option Date :=
  let neg := s.startsWith "-"
  let body := if s.startsWith "-" ∨ s.startsWith "+" then s.drop 1 else s
  match body.splitOn "-" with
  | [ys, ms, ds] =>
    if ms.length ≤ 2 ∧ ds.length ≤ 2 then
      match digitsVal ys.toList, digitsVal ms.toList, digitsVal ds.toList with
      | some y, some m, some d =>
        let yy : Int := if neg then -(y : Int) else (y : Int)
        if 1 ≤ m ∧ m ≤ 12 ∧ 1 ≤ d ∧ d ≤ daysInMonth yy m then
          some ⟨yy, m, d⟩
        else
          none
      | _, _, _ => none
    else
      none
  | _ => none

/-- `n` rendered in decimal, left-padded with zeros to width `w`. -/
def padNat (n w : Nat) : String :=
  let s := toString n
  String.mk (List.replicate (w - s.length) '0') ++ s

/-- Model of `chrono::NaiveDate`'s `Display`/`to_string`: the year is
zero-padded to four digits (with a leading `-` for negative years and a
leading `+` beyond year 9999), month and day to two digits. -/
def Date.toIsoString (dt : Date) : String :=
  let ys :=
    if dt.year < 0 then "-" ++ padNat dt.year.natAbs 4
    else if dt.year ≤ 9999 then padNat dt.year.natAbs 4
    else "+" ++ toString dt.year.natAbs
  ys ++ "-" ++ padNat dt.month 2 ++ "-" ++ padNat dt.day 2

/-- An optionally `-`-signed decimal integer literal; used to read a year
number back out of a `YearReportViewModel` title. -/
def parseSignedInt (s : String) : Option Int :=
  if s.startsWith "-" then
    (digitsVal (s.drop 1).toList).map (fun n => -(n : Int))
  else
    (digitsVal s.toList).map (fun n => (n : Int))

/-- Model of `rust_decimal::Decimal::from_str`: an optional sign, digits with
at most one decimal point, at least one digit overall (scale and mantissa
limits of the library are not modelled). -/
def parseDecimal (s : String) : Option Rat :=
  let neg := s.startsWith "-"
  let body := if s.startsWith "-" ∨ s.startsWith "+" then s.drop 1 else s
  match body.splitOn "." with
  | [a] => (digitsVal a.toList).map (fun n => if neg then -(n : Rat) else (n : Rat))
  | [a, b] =>
    if a.toList.all Char.isDigit ∧ b.toList.all Char.isDigit ∧ (a ≠ "" ∨ b ≠ "") then
      let n := (a.toList ++ b.toList).foldl (fun acc c => acc * 10 + (c.toNat - '0'.toNat)) 0
      let q : Rat := (n : Rat) / ((10 : Rat) ^ b.length)
      some (if neg then -q else q)
    else
      none
  | _ => none

/-- Model of `CurrencyPosition` (`None` / `Prefix` / `Suffix` in the source). -/
inductive CurrencyPosition where
  | None : CurrencyPosition
  | Prefixed : String → CurrencyPosition
  | Suffixed : String → CurrencyPosition
deriving DecidableEq, Repr

/-- Model of `FormatOptions` from `number_formatter.rs`. -/
structure FormatOptions where
  thousands_separator : Char
  decimal_separator : Char
  currency : CurrencyPosition
deriving DecidableEq, Repr

/-- The `Default` instance of `FormatOptions`: non-breaking-space thousands
separator, `.` decimal separator, no currency. -/
def FormatOptions.default : FormatOptions :=
  { thousands_separator := ' ', decimal_separator := '.', currency := .None }

/-- `x` rounded to an integer with ties to even, the model of
`rust_decimal`'s default `MidpointNearestEven` strategy used by `round_dp`. -/
def roundHalfEven (x : Rat) : Int :=
  let n := x.floor
  let r := x - (n : Rat)
  if r < 1 / 2 then n
  else if 1 / 2 < r then n + 1
  else if n % 2 = 0 then n else n + 1

/-- The thousands-grouping loop of `NumberFormatter::format`: walks the
characters with their running UTF-8 byte index `i`, inserting the separator
whenever the next group boundary `gsi` is hit left of the decimal point. -/
def groupChars (sep : Char) (lenTillDot : Nat) : List Char → Nat → Nat → List Char
  | [], _, _ => []
  | c :: cs, i, gsi =>
    if gsi = i ∧ gsi < lenTillDot then
      sep :: c :: groupChars sep lenTillDot cs (i + c.utf8Size) (gsi + 3)
    else
      c :: groupChars sep lenTillDot cs (i + c.utf8Size) gsi

/-- Model of `<Decimal as NumberFormatter>::format`: round to two fraction
digits (ties to even), render with exactly two fraction digits and the
configured decimal separator, insert the thousands separator every three
integer digits (sign excluded from grouping), then apply the currency affix.
Byte lengths are used exactly where the source uses `str::len`. -/
def formatDecimal (options : FormatOptions) (q : Rat) : String :=
  let n : Int := roundHalfEven (q * 100)
  let decimalString :=
    (if n < 0 then "-" else "") ++ toString (n.natAbs / 100) ++
      options.decimal_separator.toString ++ padNat (n.natAbs % 100) 2
  let lenTillDot := decimalString.utf8ByteSize - 1 - 2
  let signOffset : Nat := if n < 0 then 1 else 0
  let g0 := (lenTillDot - signOffset) % 3 + signOffset
  let gsi := if g0 = signOffset then 3 + signOffset else g0
  let formatted :=
    String.mk (groupChars options.thousands_separator lenTillDot decimalString.toList 0 gsi)
  match options.currency with
  | .None => formatted
  | .Prefixed symbol => symbol ++ formatted
  | .Suffixed symbol => formatted ++ symbol

/-- Model of `Entry` from `lib.rs`: a raw date string plus an exact decimal
amount. -/
structure Entry where
  date : String
  amount : Rat
deriving DecidableEq, Repr

/-- The file system visible to the TUI, as an association list from file
names to the parsed entry lists of the ledger files (`entries_from_file`
results). A missing key models a file that cannot be read. -/
abbrev FileSys := List (String × List Entry)

/-- Model of `entries_from_file`: look a ledger file up in the file system. -/
def fsRead (fs : FileSys) (path : String) : Option (List Entry) :=
  (fs.find? (fun kv => kv.1 == path)).map (·.2)

/-- Replace the contents of `path` (or create it), the effect of a
successful whole-file write. -/
def fsWrite : FileSys → String → List Entry → FileSys
  | [], path, es => [(path, es)]
  | kv :: rest, path, es =>
    if kv.1 = path then (path, es) :: rest else kv :: fsWrite rest path es

/-- Model of `YearReportViewModel`: year title, formatted subtotal, display
rows, and the raw entries kept for edit lookups. -/
structure YearReportViewModel where
  title : String
  subtotal_amount : String
  lines : List (String × String)
  entries : List Entry
deriving DecidableEq, Repr

/-- Model of `ReportViewModel`. -/
structure ReportViewModel where
  title : String
  total : String
  year_reports : List YearReportViewModel
deriving DecidableEq, Repr

/-- The `#[derive(Default)]` value of `ReportViewModel`. -/
instance : Inhabited ReportViewModel := ⟨⟨"", "", []⟩⟩

/-- One `years_map.entry(year).or_default().push(entry)` step on the model of
`BTreeMap<String, Vec<Entry>>`: an association list kept strictly sorted by
key in lexicographic string order (the `Ord` of Rust's `String`). -/
def insertYear (key : String) (e : Entry) : List (String × List Entry) → List (String × List Entry)
  | [] => [(key, [e])]
  | (k, es) :: rest =>
    if key = k then (k, es ++ [e]) :: rest
    else if key < k then (key, [e]) :: (k, es) :: rest
    else (k, es) :: insertYear key e rest

/-- The grouping loop of `ReportViewModel::new`: parse each entry's date (a
parse failure aborts the build) and append the entry to its year bucket,
keyed by `date.year().to_string()`. -/
def buildYearsMap : List (String × List Entry) → List Entry → Option (List (String × List Entry))
  | m, [] => some m
  | m, e :: rest =>
    match parseDate e.date with
    | none => none
    | some d => buildYearsMap (insertYear (toString d.year) e m) rest

/-- Model of `ReportViewModel::new`: the grand total is the sum of all entry
amounts, entries are grouped into year buckets in input order, and each
bucket yields its formatted subtotal and display rows. `none` models the
`Err` return when an entry's date fails to parse. The file path is modelled
by its file name. -/
def ReportViewModel.new (fileName : String) (entries : List Entry)
    (format_options : FormatOptions) : Option ReportViewModel :=
  let total : Rat := (entries.map (·.amount)).sum
  match buildYearsMap [] entries with
  | none => none
  | some yearsMap =>
    some
      { title := fileName
        total := formatDecimal format_options total
        year_reports :=
          yearsMap.map (fun kv =>
            let subtotalAmount : Rat := (kv.2.map (·.amount)).sum
            { title := kv.1
              subtotal_amount := formatDecimal format_options subtotalAmount
              lines := kv.2.map (fun e => (e.date, formatDecimal format_options e.amount))
              entries := kv.2 }) }

/-- Model of the `Focus` enum. -/
inductive Focus where
  | FileSelection : Focus
  | Years : Focus
  | YearDetails : Focus
deriving DecidableEq, Repr

/-- Model of the `PopupMode` enum. -/
inductive PopupMode where
  | None : PopupMode
  | AddEntry : PopupMode
  | EditEntry : PopupMode
deriving DecidableEq, Repr

/-- Model of the `PopupFocus` enum. -/
inductive PopupFocus where
  | Date : PopupFocus
  | Amount : PopupFocus
deriving DecidableEq, Repr

/-- Model of `Popup`; the two `tui_input::Input` fields are modelled by
their string values (the cursor always sits at the end, see the header). -/
structure Popup where
  mode : PopupMode
  focus : PopupFocus
  date_input : String
  amount_input : String
  error_message : Option String
deriving DecidableEq, Repr

/-- `Popup::new()`. -/
def Popup.new : Popup :=
  { mode := .None, focus := .Date, date_input := "", amount_input := "", error_message := none }

/-- Model of the key codes the TUI loop forwards to `handle_popup_input`
(`KeyCode::Char` and `KeyCode::Backspace`; `OtherKey` stands for every key
code the popup branch ignores). -/
inductive KeyCode where
  | Char : Char → KeyCode
  | Backspace : KeyCode
  | OtherKey : KeyCode
deriving DecidableEq, Repr

/-- Model of `App`. -/
structure App where
  files : List String
  format_options : FormatOptions
  selected_file : Nat
  report : ReportViewModel
  focus : Focus
  selected_year : Nat
  selected_entry : Nat
  popup : Popup
deriving DecidableEq, Repr

/-- Wrapping `usize` subtraction, the release-build semantics of `a - b`;
a debug build panics exactly when the wrap branch is taken. -/
def usizeWrapSub (a b : Nat) : Nat :=
  if b ≤ a then a - b else 2 ^ 64 - (b - a)

namespace App

/-- Model of `App::select_file`: reload the selected ledger's view model and
move the year cursor to `(year_reports.len() - 1).max(0)` — note that the
subtraction underflows when the report has no years. A read or build error
only logs and leaves the state unchanged. The entry cursor is not touched. -/
def select_file (app : App) (fs : FileSys) : App :=
  match app.files[app.selected_file]? with
  | none => app
  | some path =>
    match fsRead fs path with
    | none => app
    | some entries =>
      match ReportViewModel.new path entries app.format_options with
      | none => app
      | some report =>
        { app with
            selected_year := max (usizeWrapSub report.year_reports.length 1) 0
            report := report }

/-- Model of `App::new`: all cursors at 0, focus on the file panel, then an
initial `select_file`. -/
def new (fs : FileSys) (files : List String) (format_options : FormatOptions) : App :=
  App.select_file
    { files := files
      format_options := format_options
      selected_file := 0
      focus := .FileSelection
      report := default
      selected_year := 0
      selected_entry := 0
      popup := Popup.new }
    fs

/-- Model of `App::cycle_focus`. -/
def cycle_focus (app : App) : App :=
  { app with
      focus :=
        match app.focus with
        | .FileSelection => .Years
        | .Years => .YearDetails
        | .YearDetails => .FileSelection
      selected_entry := 0 }

/-- Model of `App::next` (advance the active cursor with wraparound). -/
def next (app : App) (fs : FileSys) : App :=
  match app.focus with
  | .FileSelection =>
    App.select_file
      { app with
          selected_file :=
            if app.selected_file + 1 ≥ app.files.length then 0 else app.selected_file + 1 }
      fs
  | .Years =>
    { app with
        selected_year :=
          if app.selected_year + 1 ≥ app.report.year_reports.length then 0
          else app.selected_year + 1
        selected_entry := 0 }
  | .YearDetails =>
    let entryCount := ((app.report.year_reports[app.selected_year]?).map (·.lines.length)).getD 0
    { app with
        selected_entry :=
          if app.selected_entry + 1 ≥ entryCount then 0 else app.selected_entry + 1 }

/-- Model of `App::previous` (retreat the active cursor with wraparound).
`self.files.len() - 1` is a plain `usize` subtraction and underflows on an
empty file list, while the year and entry branches use `saturating_sub`. -/
def previous (app : App) (fs : FileSys) : App :=
  match app.focus with
  | .FileSelection =>
    App.select_file
      { app with
          selected_file :=
            if app.selected_file = 0 then usizeWrapSub app.files.length 1
            else app.selected_file - 1 }
      fs
  | .Years =>
    { app with
        selected_year :=
          if app.selected_year = 0 then app.report.year_reports.length - 1
          else app.selected_year - 1
        selected_entry := 0 }
  | .YearDetails =>
    let entryCount := ((app.report.year_reports[app.selected_year]?).map (·.lines.length)).getD 0
    { app with
        selected_entry :=
          if app.selected_entry = 0 then entryCount - 1 else app.selected_entry - 1 }

end App

/-- Take the first `n` UTF-8 bytes of a character list; `none` when byte `n`
falls inside a character, which is exactly where Rust's `&s[..n]` panics
with a char-boundary error. -/
def takeBytes : List Char → Nat → Option (List Char)
  | _, 0 => some []
  | [], _ + 1 => none
  | c :: cs, n + 1 =>
    if c.utf8Size ≤ n + 1 then (takeBytes cs (n + 1 - c.utf8Size)).map (c :: ·)
    else none

namespace App

/-- Model of `App::get_selected_entry`. -/
def get_selected_entry (app : App) : Option Entry :=
  (app.report.year_reports[app.selected_year]?).bind
    (fun yr => yr.entries[app.selected_entry]?)

/-- Model of `App::open_add_entry_popup`. The ambient `chrono::Local::now()
.date_naive()` read is made an explicit `today` input, keeping the state
machine deterministic. -/
def open_add_entry_popup (app : App) (today : Date) : App :=
  { app with
      popup :=
        { mode := .AddEntry
          focus := .Date
          date_input := today.toIsoString
          amount_input := ""
          error_message := none } }

/-- Model of `rust_decimal::Decimal`'s `Display` for the values the TUI
holds (entry amounts as read back from a ledger file): the value rendered at
the smallest decimal scale, e.g. `2000` or `-75.75`. Used only to pre-fill
the edit popup's amount buffer. Values that are not decimal fractions (which
a `Decimal` cannot hold) fall back to the raw rational rendering. -/
def ratToDecimalString (q : Rat) : String :=
  match (List.range 29).find? (fun k => (q * (10 : Rat) ^ k).den == 1) with
  | some k =>
    let n := (q * (10 : Rat) ^ k).num
    let sign := if n < 0 then "-" else ""
    if k = 0 then sign ++ toString n.natAbs
    else sign ++ toString (n.natAbs / 10 ^ k) ++ "." ++ padNat (n.natAbs % 10 ^ k) k
  | none => toString q

/-- Model of `App::open_edit_entry_popup`: requires a selected entry and
pre-fills both buffers from its literal values. -/
def open_edit_entry_popup (app : App) : App :=
  match app.get_selected_entry with
  | none => app
  | some selectedEntry =>
    { app with
        popup :=
          { mode := .EditEntry
            focus := .Date
            date_input := selectedEntry.date
            amount_input := ratToDecimalString selectedEntry.amount
            error_message := none } }

/-- Model of `App::close_popup`. -/
def close_popup (app : App) : App :=
  { app with popup := Popup.new }

/-- Model of `App::cycle_popup_focus`. -/
def cycle_popup_focus (app : App) : App :=
  { app with
      popup.focus :=
        match app.popup.focus with
        | .Date => .Amount
        | .Amount => .Date }

/-- Model of `App::handle_popup_input`. A character or backspace key first
clears any error message. The date buffer takes the edit and is then
truncated to ten bytes when longer (`value()[..10]`, which panics — `none` —
when byte 10 is not a char boundary). The amount buffer accepts only ASCII
digits, `.`, and a leading `-`. -/
def handle_popup_input (app : App) (key : KeyCode) : Option App :=
  let app :=
    match key with
    | .Char _ => { app with popup.error_message := none }
    | .Backspace => { app with popup.error_message := none }
    | .OtherKey => app
  match app.popup.focus with
  | .Date =>
    let value :=
      match key with
      | .Char c => app.popup.date_input.push c
      | .Backspace => app.popup.date_input.dropRight 1
      | .OtherKey => app.popup.date_input
    if value.utf8ByteSize > 10 then
      (takeBytes value.toList 10).map
        (fun truncated => { app with popup.date_input := String.mk truncated })
    else
      some { app with popup.date_input := value }
  | .Amount =>
    match key with
    | .Char c =>
      if c.isDigit ∨ c = '.' ∨ c = '-' then
        if c = '-' ∧ app.popup.amount_input ≠ "" then
          some app
        else
          some { app with popup.amount_input := app.popup.amount_input.push c }
      else
        some app
    | .Backspace =>
      some { app with popup.amount_input := app.popup.amount_input.dropRight 1 }
    | .OtherKey => some app

end App

/-- The `entries.iter_mut().find(..)` / update step of
`App::edit_entry_in_file`: replace the first entry whose `(date, amount)`
pair literally equals `sel`'s with `newEntry`; `none` when no entry matches
(in which case the source skips the rewrite). -/
def replaceFirstMatch (sel newEntry : Entry) : List Entry → Option (List Entry)
  | [] => none
  | e :: rest =>
    if e.date = sel.date ∧ e.amount = sel.amount then some (newEntry :: rest)
    else (replaceFirstMatch sel newEntry rest).map (e :: ·)

namespace App

/-- The pure core of `App::edit_entry_in_file`: the updated entry list, or
`none` when there is no selected entry or no literal match (no rewrite). -/
def edit_entries (app : App) (entries : List Entry) (d : Date) (a : Rat) : Option (List Entry) :=
  match app.get_selected_entry with
  | none => none
  | some sel => replaceFirstMatch sel ⟨d.toIsoString, a⟩ entries

/-- Model of `App::add_entry_to_file`: read-or-default the ledger, append
the new entry at the end, write. `writeOk = false` models an I/O failure of
the open/append/flush, surfacing `ioErr`. -/
def add_entry_to_file (fs : FileSys) (writeOk : Bool) (path : String) (d : Date) (a : Rat)
    (ioErr : String) : Except String FileSys :=
  if writeOk then
    let entries := (fsRead fs path).getD []
    Except.ok (fsWrite fs path (entries ++ [⟨d.toIsoString, a⟩]))
  else
    Except.error ioErr

/-- Model of `App::edit_entry_in_file`: re-read the ledger (a read failure
propagates as an error), update the first literal match of the selected
entry, and rewrite the whole file; without a selected entry or a match the
file is left untouched and the operation still succeeds. -/
def edit_entry_in_file (app : App) (fs : FileSys) (writeOk : Bool) (path : String) (d : Date)
    (a : Rat) (ioErr : String) : Except String FileSys :=
  match fsRead fs path with
  | none => Except.error ioErr
  | some entries =>
    match app.edit_entries entries d a with
    | none => Except.ok fs
    | some newEntries =>
      if writeOk then Except.ok (fsWrite fs path newEntries) else Except.error ioErr

/-- The `match self.popup.mode` dispatch inside `handle_saving_popup_entry`
choosing the store operation. -/
def saving_result (app : App) (fs : FileSys) (writeOk : Bool) (ioErr : String) (path : String)
    (d : Date) (a : Rat) : Except String FileSys :=
  match app.popup.mode with
  | .AddEntry => add_entry_to_file fs writeOk path d a ioErr
  | .EditEntry => app.edit_entry_in_file fs writeOk path d a ioErr
  | .None => Except.ok fs

/-- Model of `App::handle_saving_popup_entry`: clear the error, validate the
two buffers (each failure keeps the popup as is and sets a field-specific
message), run the store operation, and on success reload the view model and
close the popup; a store failure keeps the popup open with a
`Failed to save:` message. `none` models the panic of
`&self.files[self.selected_file]` on an out-of-bounds file cursor. -/
def handle_saving_popup_entry (app : App) (fs : FileSys) (writeOk : Bool) (ioErr : String) :
    Option (FileSys × App) :=
  let app1 := { app with popup.error_message := none }
  match parseDate app1.popup.date_input with
  | none =>
    some (fs, { app1 with popup.error_message := some "Invalid date format. Use YYYY-MM-DD" })
  | some d =>
    match parseDecimal app1.popup.amount_input with
    | none =>
      some (fs, { app1 with popup.error_message := some "Invalid amount format. Use decimal number" })
    | some a =>
      match app1.files[app1.selected_file]? with
      | none => none
      | some path =>
        match app1.saving_result fs writeOk ioErr path d a with
        | Except.ok fs2 => some (fs2, (app1.select_file fs2).close_popup)
        | Except.error e =>
          some (fs, { app1 with popup.error_message := some ("Failed to save: " ++ e) })

end App

/-- The entries-panel lookup of the renderer (`ui` in `tui.rs`):
`&app.report.year_reports[app.selected_year]` indexes unconditionally, so
`none` models the out-of-bounds panic on any redraw whose selected ledger
has no year buckets. -/
def uiSelectedYearPanel (app : App) : Option YearReportViewModel :=
  app.report.year_reports[app.selected_year]?

/-! ## Helper lemmas -/

/-- `List.set` at one index leaves every other position unchanged. -/
theorem getElemQ_set_ne {α : Type _} (a : α) :
    ∀ (l : List α) (i j : Nat), i ≠ j → (l.set i a)[j]? = l[j]? := by
  intro l
  induction l with
  | nil => intro i j _; simp
  | cons x xs ih =>
    intro i j hne
    cases i with
    | zero =>
      cases j with
      | zero => exact absurd rfl hne
      | succ j => simp [List.set]
    | succ i =>
      cases j with
      | zero => simp [List.set]
      | succ j =>
        simpa [List.set] using ih i j (by omega)

/-- Characterization of `replaceFirstMatch`: a successful replacement hits
the first literal `(date, amount)` match and is a `List.set` at its index. -/
theorem replaceFirstMatch_eq_some (sel newEntry : Entry) :
    ∀ (entries result : List Entry), replaceFirstMatch sel newEntry entries = some result →
    ∃ i, i < entries.length ∧
      (∀ j, j < i → ∀ ej, entries[j]? = some ej →
        ¬(ej.date = sel.date ∧ ej.amount = sel.amount)) ∧
      (∃ ei, entries[i]? = some ei ∧ ei.date = sel.date ∧ ei.amount = sel.amount) ∧
      result = entries.set i newEntry := by
  intro entries
  induction entries with
  | nil => intro result h; simp [replaceFirstMatch] at h
  | cons e rest ih =>
    intro result h
    by_cases hmatch : e.date = sel.date ∧ e.amount = sel.amount
    · refine ⟨0, by simp, ?_, ⟨e, by simp, hmatch⟩, ?_⟩
      · intro j hj; omega
      · rw [replaceFirstMatch, if_pos hmatch] at h
        simpa [List.set] using h.symm
    · rw [replaceFirstMatch, if_neg hmatch] at h
      obtain ⟨r2, hr2, hres⟩ := Option.map_eq_some'.mp h
      obtain ⟨i, hlen, hbefore, ⟨ei, hei, heimatch⟩, hset⟩ := ih r2 hr2
      refine ⟨i + 1, by simpa using hlen, ?_, ⟨ei, by simpa using hei, heimatch⟩, ?_⟩
      · intro j hj ej hej
        cases j with
        | zero =>
          simp only [List.getElem?_cons_zero, Option.some_inj] at hej
          subst hej; exact hmatch
        | succ j =>
          exact hbefore j (by omega) ej (by simpa using hej)
      · rw [← hres, hset]; rfl

/-- `replaceFirstMatch` succeeds whenever the selected entry itself occurs in
the list. -/
theorem replaceFirstMatch_isSome_of_mem (sel newEntry : Entry) :
    ∀ entries : List Entry, sel ∈ entries →
      (replaceFirstMatch sel newEntry entries).isSome := by
  intro entries
  induction entries with
  | nil => intro h; simp at h
  | cons e rest ih =>
    intro hmem
    by_cases hmatch : e.date = sel.date ∧ e.amount = sel.amount
    · rw [replaceFirstMatch, if_pos hmatch]; rfl
    · rw [replaceFirstMatch, if_neg hmatch]
      rcases List.mem_cons.mp hmem with heq | hrest
      · exact absurd (by rw [heq]; exact ⟨rfl, rfl⟩) hmatch
      · have := ih hrest
        rcases Option.isSome_iff_exists.mp this with ⟨r, hr⟩
        rw [hr]; rfl

/-- Arithmetic sum of a list of entries. -/
def entriesSum (es : List Entry) : Rat :=
  (es.map (·.amount)).sum

/-- Sum of all bucket sums of a year map. -/
def bucketsSum (m : List (String × List Entry)) : Rat :=
  (m.map (fun kv => entriesSum kv.2)).sum

/-- Inserting one entry into the year map grows the bucket total by exactly
that entry's amount. -/
theorem insertYear_bucketsSum (key : String) (e : Entry) :
    ∀ m, bucketsSum (insertYear key e m) = bucketsSum m + e.amount := by
  intro m
  induction m with
  | nil => simp [insertYear, bucketsSum, entriesSum]
  | cons kv rest ih =>
    obtain ⟨k, es⟩ := kv
    by_cases hk : key = k
    · simp only [insertYear, if_pos hk, bucketsSum, entriesSum, List.map_cons, List.sum_cons,
        List.map_append, List.sum_append, List.map_nil, List.sum_nil] at *
      ring
    · by_cases hlt : key < k
      · simp only [insertYear, if_neg hk, if_pos hlt, bucketsSum, entriesSum, List.map_cons,
          List.sum_cons, List.map_nil, List.sum_nil] at *
        ring
      · simp only [insertYear, if_neg hk, if_neg hlt, bucketsSum, List.map_cons,
          List.sum_cons] at *
        rw [ih]; ring

/-- A successful `buildYearsMap` preserves the total amount: the bucket sums
add up to the accumulator's total plus the input total. -/
theorem buildYearsMap_bucketsSum :
    ∀ (entries : List Entry) (m m2 : List (String × List Entry)),
      buildYearsMap m entries = some m2 →
      bucketsSum m2 = bucketsSum m + entriesSum entries := by
  intro entries
  induction entries with
  | nil =>
    intro m m2 h
    simp only [buildYearsMap, Option.some_inj] at h
    simp [← h, entriesSum]
  | cons e rest ih =>
    intro m m2 h
    rw [buildYearsMap] at h
    cases hd : parseDate e.date with
    | none => rw [hd] at h; exact absurd h (by simp)
    | some d =>
      rw [hd] at h
      have := ih _ _ h
      rw [this, insertYear_bucketsSum]
      simp [entriesSum]
      ring

/-- Every bucket of `insertYear key e m` carries either the inserted key or
a key already present in `m`. -/
theorem insertYear_mem_key (key : String) (e : Entry) :
    ∀ (m : List (String × List Entry)) (kv : String × List Entry),
      kv ∈ insertYear key e m → kv.1 = key ∨ kv.1 ∈ m.map (·.1) := by
  intro m
  induction m with
  | nil =>
    intro kv h
    simp only [insertYear, List.mem_singleton] at h
    left; rw [h]
  | cons hd rest ih =>
    obtain ⟨k, es⟩ := hd
    intro kv h
    by_cases hk : key = k
    · rw [insertYear, if_pos hk] at h
      rcases List.mem_cons.mp h with heq | hmem
      · right; rw [heq]; simp
      · right; simp only [List.map_cons, List.mem_cons]; right
        exact List.mem_map.mpr ⟨kv, hmem, rfl⟩
    · by_cases hlt : key < k
      · rw [insertYear, if_neg hk, if_pos hlt] at h
        rcases List.mem_cons.mp h with heq | hmem
        · left; rw [heq]
        · right
          simpa using (List.mem_map.mpr ⟨kv, hmem, rfl⟩ : kv.1 ∈ ((k, es) :: rest).map (·.1))
      · rw [insertYear, if_neg hk, if_neg hlt] at h
        rcases List.mem_cons.mp h with heq | hmem
        · right; rw [heq]; simp
        · rcases ih kv hmem with hkey | hrest
          · left; exact hkey
          · right; simp only [List.map_cons, List.mem_cons]; right; exact hrest

/-- `insertYear` keeps the year map strictly sorted by key. -/
theorem insertYear_pairwise (key : String) (e : Entry) :
    ∀ m : List (String × List Entry),
      m.Pairwise (fun a b => a.1 < b.1) →
      (insertYear key e m).Pairwise (fun a b => a.1 < b.1) := by
  intro m
  induction m with
  | nil => intro _; simp [insertYear]
  | cons hd rest ih =>
    obtain ⟨k, es⟩ := hd
    intro hp
    rcases List.pairwise_cons.mp hp with ⟨hhead, htail⟩
    by_cases hk : key = k
    · rw [insertYear, if_pos hk]
      exact List.Pairwise.cons hhead htail
    · by_cases hlt : key < k
      · rw [insertYear, if_neg hk, if_pos hlt]
        refine List.Pairwise.cons ?_ (List.Pairwise.cons hhead htail)
        intro b hb
        rcases List.mem_cons.mp hb with heq | hmem
        · rw [heq]; exact hlt
        · exact lt_trans hlt (hhead b hmem)
      · rw [insertYear, if_neg hk, if_neg hlt]
        have hgt : k < key := by
          rcases lt_trichotomy key k with h | h | h
          · exact absurd h hlt
          · exact absurd h hk
          · exact h
        refine List.Pairwise.cons ?_ (ih htail)
        intro b hb
        rcases insertYear_mem_key key e rest b hb with hbkey | hbrest
        · rw [hbkey]; exact hgt
        · rcases List.mem_map.mp hbrest with ⟨kv, hkv, hkveq⟩
          rw [← hkveq]; exact hhead kv hkv

/-- `buildYearsMap` keeps the year map strictly sorted by key. -/
theorem buildYearsMap_pairwise :
    ∀ (entries : List Entry) (m m2 : List (String × List Entry)),
      buildYearsMap m entries = some m2 →
      m.Pairwise (fun a b => a.1 < b.1) →
      m2.Pairwise (fun a b => a.1 < b.1) := by
  intro entries
  induction entries with
  | nil =>
    intro m m2 h hp
    simp only [buildYearsMap, Option.some_inj] at h
    rw [← h]; exact hp
  | cons e rest ih =>
    intro m m2 h hp
    rw [buildYearsMap] at h
    cases hd : parseDate e.date with
    | none => rw [hd] at h; exact absurd h (by simp)
    | some d =>
      rw [hd] at h
      exact ih _ _ h (insertYear_pairwise _ e m hp)

/-! ## Claim theorems -/

/-- Concrete two-year ledger used by several witnesses. -/
def sampleEntries : List Entry :=
  [⟨"2024-09-11", 700⟩, ⟨"2025-01-05", (4242 : Rat) / 100⟩]

/-- C6: for every entry sequence that builds successfully, the
`ReportViewModel` grand total is the formatted arithmetic sum of all entry
amounts (independent of the year grouping), and the per-year subtotal
amounts add up to that same grand total. -/
theorem report_total_is_sum (fileName : String) (entries : List Entry)
    (format_options : FormatOptions) (rvm : ReportViewModel)
    (h : ReportViewModel.new fileName entries format_options = some rvm) :
    rvm.total = formatDecimal format_options (entriesSum entries) ∧
    (rvm.year_reports.map (fun yr => entriesSum yr.entries)).sum = entriesSum entries := by
  simp only [ReportViewModel.new] at h
  cases hbm : buildYearsMap [] entries with
  | none => rw [hbm] at h; exact absurd h (by simp)
  | some ym =>
    rw [hbm] at h
    simp only [Option.some_inj] at h
    subst h
    constructor
    · simp [entriesSum]
    · have hsum := buildYearsMap_bucketsSum entries [] ym hbm
      simp only [bucketsSum, List.map_nil, List.sum_nil, zero_add] at hsum
      simpa [List.map_map, Function.comp, bucketsSum, entriesSum] using hsum

/-- Witness for C6 on a concrete two-year ledger. -/
theorem report_total_is_sum_witness :
    ((ReportViewModel.new "a.csv" sampleEntries FormatOptions.default).getD default).total =
      formatDecimal FormatOptions.default (entriesSum sampleEntries) ∧
    ((((ReportViewModel.new "a.csv" sampleEntries FormatOptions.default).getD
          default).year_reports.map (fun yr => entriesSum yr.entries)).sum =
      entriesSum sampleEntries) :=
  report_total_is_sum "a.csv" sampleEntries FormatOptions.default _ (by with_unfolding_all rfl)

/-- C7 (amended): the year reports of a successfully built view model are
strictly ascending by their year-key string in lexicographic order, and each
year report has exactly as many display rows as stored raw entries. -/
theorem year_reports_sorted_rows_match (fileName : String) (entries : List Entry)
    (format_options : FormatOptions) (rvm : ReportViewModel)
    (h : ReportViewModel.new fileName entries format_options = some rvm) :
    rvm.year_reports.Pairwise (fun a b => a.title < b.title) ∧
    rvm.year_reports.map (fun yr => yr.lines.length) =
      rvm.year_reports.map (fun yr => yr.entries.length) := by
  simp only [ReportViewModel.new] at h
  cases hbm : buildYearsMap [] entries with
  | none => rw [hbm] at h; exact absurd h (by simp)
  | some ym =>
    rw [hbm] at h
    simp only [Option.some_inj] at h
    subst h
    constructor
    · have hp := buildYearsMap_pairwise entries [] ym hbm (by simp)
      simpa [List.pairwise_map] using hp
    · simp [List.map_map, Function.comp]

/-- Witness for C7's amended statement on a concrete two-year ledger. -/
theorem year_reports_sorted_rows_match_witness :
    ((ReportViewModel.new "a.csv" sampleEntries FormatOptions.default).getD
        default).year_reports.Pairwise (fun a b => a.title < b.title) ∧
    ((ReportViewModel.new "a.csv" sampleEntries FormatOptions.default).getD
        default).year_reports.map (fun yr => yr.lines.length) =
      ((ReportViewModel.new "a.csv" sampleEntries FormatOptions.default).getD
        default).year_reports.map (fun yr => yr.entries.length) :=
  year_reports_sorted_rows_match "a.csv" sampleEntries FormatOptions.default _ (by with_unfolding_all rfl)

/-- Counterexample for C7 as stated: with valid entries in years 999 and
1000 the builder emits the year reports in `BTreeMap` string-key order
`["1000", "999"]`, which is numerically descending, because
`date.year().to_string()` does not zero-pad years below 1000. -/
theorem year_numeric_order_counterexample :
    ((ReportViewModel.new "a.csv" [⟨"0999-03-04", 1⟩, ⟨"1000-01-02", 2⟩]
        FormatOptions.default).map
      (fun rvm => rvm.year_reports.map (fun yr => (parseSignedInt yr.title).getD 0)) =
      some [(1000 : Int), 999]) ∧
    ¬ List.Pairwise (fun a b : Int => a < b) [(1000 : Int), 999] := by
  constructor
  · with_unfolding_all rfl
  · intro hp
    rcases List.pairwise_cons.mp hp with ⟨hhead, _⟩
    have := hhead 999 (by simp)
    omega

/-- Concrete single-file ledger with two years (the first holding two rows)
used by several witnesses and counterexamples. -/
def sampleLedger : List Entry :=
  [⟨"2024-01-10", 5⟩, ⟨"2024-02-10", 7⟩, ⟨"2025-03-01", 9⟩]

/-- File system holding `sampleLedger` under `a.csv`. -/
def sampleFs : FileSys := [("a.csv", sampleLedger)]

/-- The app freshly started on `sampleFs`. -/
def sampleApp : App := App.new sampleFs ["a.csv"] FormatOptions.default

/-- The view model built from `sampleLedger`. -/
def sampleRvm : ReportViewModel :=
  (ReportViewModel.new "a.csv" sampleLedger FormatOptions.default).getD default

/-- C1 (amended): advancing or retreating the year cursor resets the entry
cursor to 0, the first row of the newly selected year; and a successful
`select_file` replaces the view model, puts the year cursor on the last
year (when at least one year exists), and leaves the entry cursor
unchanged. -/
theorem ledger_and_year_selection_resets :
    (∀ (app : App) (fs : FileSys), app.focus = Focus.Years →
      (app.next fs).selected_entry = 0 ∧ (app.previous fs).selected_entry = 0) ∧
    (∀ (app : App) (fs : FileSys) (path : String) (entries : List Entry)
        (rvm : ReportViewModel),
      app.files[app.selected_file]? = some path →
      fsRead fs path = some entries →
      ReportViewModel.new path entries app.format_options = some rvm →
      rvm.year_reports ≠ [] →
      (app.select_file fs).report = rvm ∧
      (app.select_file fs).selected_year = rvm.year_reports.length - 1 ∧
      (app.select_file fs).selected_entry = app.selected_entry) := by
  constructor
  · intro app fs hfocus
    constructor
    · simp [App.next, hfocus]
    · simp [App.previous, hfocus]
  · intro app fs path entries rvm hpath hread hnew hne
    have hsel : app.select_file fs =
        { app with
            selected_year := max (usizeWrapSub rvm.year_reports.length 1) 0
            report := rvm } := by
      simp [App.select_file, hpath, hread, hnew]
    rw [hsel]
    have hlen : 0 < rvm.year_reports.length := List.length_pos.mpr hne
    refine ⟨rfl, ?_, rfl⟩
    show max (usizeWrapSub rvm.year_reports.length 1) 0 = rvm.year_reports.length - 1
    rw [usizeWrapSub, if_pos (by omega : 1 ≤ rvm.year_reports.length)]
    exact Nat.max_eq_left (Nat.zero_le _)

/-- Witness for C1's amended statement on the concrete sample app. -/
theorem ledger_and_year_selection_resets_witness :
    ((sampleApp.cycle_focus.next sampleFs).selected_entry = 0 ∧
      (sampleApp.cycle_focus.previous sampleFs).selected_entry = 0) ∧
    ((sampleApp.select_file sampleFs).report = sampleRvm ∧
      (sampleApp.select_file sampleFs).selected_year = sampleRvm.year_reports.length - 1 ∧
      (sampleApp.select_file sampleFs).selected_entry = sampleApp.selected_entry) :=
  ⟨ledger_and_year_selection_resets.1 sampleApp.cycle_focus sampleFs
      (by with_unfolding_all rfl),
    ledger_and_year_selection_resets.2 sampleApp sampleFs "a.csv" sampleLedger sampleRvm
      (by with_unfolding_all rfl) (by with_unfolding_all rfl) (by with_unfolding_all rfl)
      (by
        have hlen : sampleRvm.year_reports.length = 2 := by with_unfolding_all rfl
        intro h
        rw [h] at hlen
        exact absurd hlen (by decide))⟩

/-- Counterexample for C1 as stated: from the freshly started sample app
(year 2025 selected), focusing the years panel and retreating selects year
2024, which has two rows, yet the entry cursor is 0 and not the last row
index 1; the claimed reset to the last row does not happen. -/
theorem year_change_entry_cursor_counterexample :
    ((sampleApp.cycle_focus.previous sampleFs).selected_year = 0) ∧
    ((sampleApp.cycle_focus.previous sampleFs).report.year_reports.map
        (fun yr => yr.lines.length) = [2, 1]) ∧
    ((sampleApp.cycle_focus.previous sampleFs).selected_entry = 0) ∧
    (sampleApp.cycle_focus.previous sampleFs).selected_entry ≠ 2 - 1 := by
  refine ⟨by with_unfolding_all rfl, by with_unfolding_all rfl,
    by with_unfolding_all rfl, ?_⟩
  have h : (sampleApp.cycle_focus.previous sampleFs).selected_entry = 0 := by
    with_unfolding_all rfl
  rw [h]
  decide

/-- C2 (amended): from a state with an inactive popup, Open-Add enters
Adding mode, focuses the Date field (not the Amount field), pre-fills the
date buffer with the supplied current local date, empties the amount buffer
and clears the error. -/
theorem open_add_popup_spec (app : App) (today : Date)
    (_h : app.popup.mode = PopupMode.None) :
    (app.open_add_entry_popup today).popup.mode = PopupMode.AddEntry ∧
    (app.open_add_entry_popup today).popup.focus = PopupFocus.Date ∧
    (app.open_add_entry_popup today).popup.date_input = today.toIsoString ∧
    (app.open_add_entry_popup today).popup.amount_input = "" ∧
    (app.open_add_entry_popup today).popup.error_message = none :=
  ⟨rfl, rfl, rfl, rfl, rfl⟩

/-- Witness for C2's amended statement on the concrete sample app. -/
theorem open_add_popup_spec_witness :
    (sampleApp.open_add_entry_popup ⟨2024, 9, 12⟩).popup.mode = PopupMode.AddEntry ∧
    (sampleApp.open_add_entry_popup ⟨2024, 9, 12⟩).popup.focus = PopupFocus.Date ∧
    (sampleApp.open_add_entry_popup ⟨2024, 9, 12⟩).popup.date_input =
      Date.toIsoString ⟨2024, 9, 12⟩ ∧
    (sampleApp.open_add_entry_popup ⟨2024, 9, 12⟩).popup.amount_input = "" ∧
    (sampleApp.open_add_entry_popup ⟨2024, 9, 12⟩).popup.error_message = none :=
  open_add_popup_spec sampleApp ⟨2024, 9, 12⟩ (by with_unfolding_all rfl)

/-- Counterexample for C2 as stated: the freshly started sample app has an
inactive popup, and Open-Add puts the field focus on the Date field, which
is not the Amount field the claim demands. -/
theorem open_add_focus_counterexample :
    sampleApp.popup.mode = PopupMode.None ∧
    (sampleApp.open_add_entry_popup ⟨2024, 9, 12⟩).popup.focus = PopupFocus.Date ∧
    PopupFocus.Date ≠ PopupFocus.Amount :=
  ⟨by with_unfolding_all rfl, rfl, by decide⟩

/-- The sample app with the Add popup open and the Amount field focused. -/
def amountApp : App := (sampleApp.open_add_entry_popup ⟨2024, 9, 12⟩).cycle_popup_focus

/-- `amountApp` with "5" already typed into the amount buffer. -/
def amountApp5 : App := { amountApp with popup.amount_input := "5" }

/-- C8: with the Amount field focused, a typed character is appended exactly
when it is an ASCII digit, `.`, or a `-` with an empty buffer; every other
character (including a non-leading `-`) leaves the buffer unchanged; and the
scenario `-`, `5`, `-` ends with buffer "-5". -/
theorem amount_input_filter :
    (∀ (app : App) (c : Char), app.popup.focus = PopupFocus.Amount →
      ¬(c.isDigit ∨ c = '.' ∨ c = '-') →
      app.handle_popup_input (KeyCode.Char c) =
        some { app with popup.error_message := none }) ∧
    (∀ (app : App) (c : Char), app.popup.focus = PopupFocus.Amount →
      (c.isDigit ∨ c = '.' ∨ (c = '-' ∧ app.popup.amount_input = "")) →
      app.handle_popup_input (KeyCode.Char c) =
        some { app with
                popup.error_message := none
                popup.amount_input := app.popup.amount_input.push c }) ∧
    (∀ app : App, app.popup.focus = PopupFocus.Amount →
      app.popup.amount_input ≠ "" →
      app.handle_popup_input (KeyCode.Char '-') =
        some { app with popup.error_message := none }) ∧
    ((((amountApp.handle_popup_input (KeyCode.Char '-')).bind
        (fun s => s.handle_popup_input (KeyCode.Char '5'))).bind
        (fun s => s.handle_popup_input (KeyCode.Char '-'))).map
      (fun s => s.popup.amount_input) = some "-5") := by
  refine ⟨?_, ?_, ?_, by with_unfolding_all rfl⟩
  · intro app c hfocus hrej
    simp only [App.handle_popup_input, hfocus]
    rw [if_neg hrej]
  · intro app c hfocus hacc
    have houter : c.isDigit ∨ c = '.' ∨ c = '-' := by
      rcases hacc with hd | hdot | ⟨hminus, _⟩
      · exact Or.inl hd
      · exact Or.inr (Or.inl hdot)
      · exact Or.inr (Or.inr hminus)
    have hinner : ¬(c = '-' ∧ ¬({ app with popup.error_message := none } : App).popup.amount_input = "") := by
      rcases hacc with hd | hdot | ⟨hminus, hempty⟩
      · rintro ⟨hc, _⟩
        rw [hc] at hd
        exact absurd hd (by decide)
      · rintro ⟨hc, _⟩
        rw [hc] at hdot
        exact absurd hdot (by decide)
      · rintro ⟨_, hne⟩
        exact hne hempty
    simp only [App.handle_popup_input, hfocus]
    rw [if_pos houter, if_neg hinner]
  · intro app hfocus hne
    simp only [App.handle_popup_input, hfocus]
    split_ifs with h1 h2
    · rfl
    · exact absurd ⟨trivial, hne⟩ h2
    · exact absurd (Or.inr (Or.inr trivial)) h1

/-- Witness for C8 at concrete inputs: `x` is rejected, `7` is appended, a
second `-` after "5" is rejected. -/
theorem amount_input_filter_witness :
    (amountApp.handle_popup_input (KeyCode.Char 'x') =
      some { amountApp with popup.error_message := none }) ∧
    (amountApp.handle_popup_input (KeyCode.Char '7') =
      some { amountApp with
              popup.error_message := none
              popup.amount_input := amountApp.popup.amount_input.push '7' }) ∧
    (amountApp5.handle_popup_input (KeyCode.Char '-') =
      some { amountApp5 with popup.error_message := none }) :=
  ⟨amount_input_filter.1 amountApp 'x' (by with_unfolding_all rfl) (by decide),
    amount_input_filter.2.1 amountApp '7' (by with_unfolding_all rfl) (Or.inl (by decide)),
    amount_input_filter.2.2.1 amountApp5 (by with_unfolding_all rfl)
      (by
        have h5 : amountApp5.popup.amount_input = "5" := by with_unfolding_all rfl
        rw [h5]
        decide)⟩

/-- The sample app with an unparsable date buffer. -/
def badDateApp : App := { sampleApp with popup.date_input := "invalid" }

/-- The sample app with a parsable date buffer and an unparsable amount
buffer. -/
def badAmountApp : App :=
  { sampleApp with popup.date_input := "2024-09-12", popup.amount_input := "x" }

/-- C4: Confirm with an unparsable date buffer keeps the state (mode and
both buffers) and only sets the error to exactly
"Invalid date format. Use YYYY-MM-DD"; with a parsable date but unparsable
amount buffer it likewise sets exactly
"Invalid amount format. Use decimal number"; and any subsequent character
or backspace keystroke clears the error. -/
theorem confirm_parse_failure_errors :
    (∀ (app : App) (fs : FileSys) (writeOk : Bool) (ioErr : String),
      parseDate app.popup.date_input = none →
      app.handle_saving_popup_entry fs writeOk ioErr =
        some (fs,
          { app with popup.error_message := some "Invalid date format. Use YYYY-MM-DD" })) ∧
    (∀ (app : App) (fs : FileSys) (writeOk : Bool) (ioErr : String) (d : Date),
      parseDate app.popup.date_input = some d →
      parseDecimal app.popup.amount_input = none →
      app.handle_saving_popup_entry fs writeOk ioErr =
        some (fs,
          { app with popup.error_message := some "Invalid amount format. Use decimal number" })) ∧
    (∀ (app app2 : App) (c : Char),
      app.handle_popup_input (KeyCode.Char c) = some app2 →
      app2.popup.error_message = none) ∧
    (∀ app app2 : App,
      app.handle_popup_input KeyCode.Backspace = some app2 →
      app2.popup.error_message = none) := by
  refine ⟨?_, ?_, ?_, ?_⟩
  · intro app fs writeOk ioErr hdate
    simp [App.handle_saving_popup_entry, hdate]
  · intro app fs writeOk ioErr d hdate hamount
    simp [App.handle_saving_popup_entry, hdate, hamount]
  · intro app app2 c h
    cases hfoc : app.popup.focus with
    | Date =>
      simp only [App.handle_popup_input, hfoc] at h
      split_ifs at h with hlen
      · obtain ⟨t, _, rfl⟩ := Option.map_eq_some'.mp h
        rfl
      · obtain rfl := Option.some_inj.mp h
        rfl
    | Amount =>
      simp only [App.handle_popup_input, hfoc] at h
      split_ifs at h with h1 h2
      · obtain rfl := Option.some_inj.mp h
        rfl
      · obtain rfl := Option.some_inj.mp h
        rfl
      · obtain rfl := Option.some_inj.mp h
        rfl
  · intro app app2 h
    cases hfoc : app.popup.focus with
    | Date =>
      simp only [App.handle_popup_input, hfoc] at h
      split_ifs at h with hlen
      · obtain ⟨t, _, rfl⟩ := Option.map_eq_some'.mp h
        rfl
      · obtain rfl := Option.some_inj.mp h
        rfl
    | Amount =>
      simp only [App.handle_popup_input, hfoc] at h
      obtain rfl := Option.some_inj.mp h
      rfl

/-- Witness for C4 at concrete inputs. -/
theorem confirm_parse_failure_errors_witness :
    (badDateApp.handle_saving_popup_entry sampleFs true "io" =
      some (sampleFs,
        { badDateApp with popup.error_message := some "Invalid date format. Use YYYY-MM-DD" })) ∧
    (badAmountApp.handle_saving_popup_entry sampleFs true "io" =
      some (sampleFs,
        { badAmountApp with
            popup.error_message := some "Invalid amount format. Use decimal number" })) ∧
    (((amountApp.handle_popup_input (KeyCode.Char '7')).getD amountApp).popup.error_message =
      none) ∧
    (((amountApp.handle_popup_input KeyCode.Backspace).getD amountApp).popup.error_message =
      none) :=
  ⟨confirm_parse_failure_errors.1 badDateApp sampleFs true "io" (by with_unfolding_all rfl),
    confirm_parse_failure_errors.2.1 badAmountApp sampleFs true "io" ⟨2024, 9, 12⟩
      (by with_unfolding_all rfl) (by with_unfolding_all rfl),
    confirm_parse_failure_errors.2.2.1 amountApp _ '7' (by with_unfolding_all rfl),
    confirm_parse_failure_errors.2.2.2 amountApp _ (by with_unfolding_all rfl)⟩

/-- The sample app in Adding mode with valid buffers, used to exercise a
store failure. -/
def saveFailApp : App :=
  { sampleApp with
      popup.mode := PopupMode.AddEntry
      popup.date_input := "2024-09-12"
      popup.amount_input := "5" }

/-- C5: a Confirm that fails — on invalid input or on a store error —
returns the file system untouched and changes the state only by setting the
popup error (so the in-memory `ReportViewModel` is not replaced and the
popup stays open in its mode); on a store failure the message is
`Failed to save:` followed by the store error. -/
theorem failed_confirm_preserves_report :
    (∀ (app : App) (fs : FileSys) (writeOk : Bool) (ioErr : String),
      (parseDate app.popup.date_input = none ∨
        parseDecimal app.popup.amount_input = none) →
      ∃ msg, app.handle_saving_popup_entry fs writeOk ioErr =
        some (fs, { app with popup.error_message := some msg })) ∧
    (∀ (app : App) (fs : FileSys) (writeOk : Bool) (ioErr : String) (d : Date) (a : Rat)
        (path : String) (e : String),
      parseDate app.popup.date_input = some d →
      parseDecimal app.popup.amount_input = some a →
      app.files[app.selected_file]? = some path →
      app.saving_result fs writeOk ioErr path d a = Except.error e →
      app.handle_saving_popup_entry fs writeOk ioErr =
        some (fs, { app with popup.error_message := some ("Failed to save: " ++ e) })) := by
  constructor
  · intro app fs writeOk ioErr hbad
    rcases hbad with hdate | hamount
    · exact ⟨"Invalid date format. Use YYYY-MM-DD",
        by simp [App.handle_saving_popup_entry, hdate]⟩
    · cases hd : parseDate app.popup.date_input with
      | none =>
        exact ⟨"Invalid date format. Use YYYY-MM-DD",
          by simp [App.handle_saving_popup_entry, hd]⟩
      | some d =>
        exact ⟨"Invalid amount format. Use decimal number",
          by simp [App.handle_saving_popup_entry, hd, hamount]⟩
  · intro app fs writeOk ioErr d a path e hdate hamount hpath hsr
    have hsr1 : App.saving_result { app with popup.error_message := none } fs writeOk ioErr
        path d a = Except.error e := hsr
    simp [App.handle_saving_popup_entry, hdate, hamount, hpath, hsr1]

/-- Witness for C5: an unparsable date, and an injected append failure in
Adding mode. -/
theorem failed_confirm_preserves_report_witness :
    (∃ msg, badDateApp.handle_saving_popup_entry sampleFs true "io" =
      some (sampleFs, { badDateApp with popup.error_message := some msg })) ∧
    (saveFailApp.handle_saving_popup_entry sampleFs false "io" =
      some (sampleFs,
        { saveFailApp with popup.error_message := some ("Failed to save: " ++ "io") })) :=
  ⟨failed_confirm_preserves_report.1 badDateApp sampleFs true "io"
      (Or.inl (by with_unfolding_all rfl)),
    failed_confirm_preserves_report.2 saveFailApp sampleFs false "io" ⟨2024, 9, 12⟩ 5 "a.csv"
      "io" (by with_unfolding_all rfl) (by with_unfolding_all rfl) (by with_unfolding_all rfl)
      (by with_unfolding_all rfl)⟩

/-- C3: a successful edit Confirm replaces exactly the first entry in file
order whose `(date, amount)` pair literally equals the selected entry's
values — the match uses the selected entry, never the edited buffers — sets
its date and amount to the newly parsed values, and leaves every other
entry unchanged (the whole updated list is what gets rewritten). The
selection itself cannot drift while the popup is open: the popup-mode
handlers other than Confirm (cancel, field cycling, text input) never
change the selected entry. -/
theorem edit_replaces_first_literal_match :
    (∀ (app : App) (entries : List Entry) (d : Date) (a : Rat) (sel : Entry),
      app.get_selected_entry = some sel →
      sel ∈ entries →
      ∃ i, i < entries.length ∧
        (∀ j, j < i → ∀ ej, entries[j]? = some ej →
          ¬(ej.date = sel.date ∧ ej.amount = sel.amount)) ∧
        (∃ ei, entries[i]? = some ei ∧ ei.date = sel.date ∧ ei.amount = sel.amount) ∧
        app.edit_entries entries d a = some (entries.set i ⟨d.toIsoString, a⟩) ∧
        (∀ j, j ≠ i → (entries.set i (⟨d.toIsoString, a⟩ : Entry))[j]? = entries[j]?)) ∧
    (∀ app : App,
      app.close_popup.get_selected_entry = app.get_selected_entry ∧
      app.cycle_popup_focus.get_selected_entry = app.get_selected_entry) ∧
    (∀ (app app2 : App) (key : KeyCode),
      app.handle_popup_input key = some app2 →
      app2.get_selected_entry = app.get_selected_entry) := by
  refine ⟨?_, ?_, ?_⟩
  · intro app entries d a sel hsel hmem
    have hsome := replaceFirstMatch_isSome_of_mem sel ⟨d.toIsoString, a⟩ entries hmem
    obtain ⟨result, hres⟩ := Option.isSome_iff_exists.mp hsome
    obtain ⟨i, hlen, hbefore, hmatch, hset⟩ :=
      replaceFirstMatch_eq_some sel ⟨d.toIsoString, a⟩ entries result hres
    refine ⟨i, hlen, hbefore, hmatch, ?_, ?_⟩
    · rw [App.edit_entries, hsel]
      dsimp only
      rw [hres, hset]
    · intro j hj
      exact getElemQ_set_ne _ entries i j (fun h => hj h.symm)
  · intro app
    exact ⟨rfl, rfl⟩
  · intro app app2 key
    intro h
    cases hfoc : app.popup.focus with
    | Date =>
      cases key with
      | Char c =>
        simp only [App.handle_popup_input, hfoc] at h
        split_ifs at h with hlen
        · obtain ⟨t, _, rfl⟩ := Option.map_eq_some'.mp h
          rfl
        · obtain rfl := Option.some_inj.mp h
          rfl
      | Backspace =>
        simp only [App.handle_popup_input, hfoc] at h
        split_ifs at h with hlen
        · obtain ⟨t, _, rfl⟩ := Option.map_eq_some'.mp h
          rfl
        · obtain rfl := Option.some_inj.mp h
          rfl
      | OtherKey =>
        simp only [App.handle_popup_input, hfoc] at h
        split_ifs at h with hlen
        · obtain ⟨t, _, rfl⟩ := Option.map_eq_some'.mp h
          rfl
        · obtain rfl := Option.some_inj.mp h
          rfl
    | Amount =>
      cases key with
      | Char c =>
        simp only [App.handle_popup_input, hfoc] at h
        split_ifs at h with h1 h2
        · obtain rfl := Option.some_inj.mp h
          rfl
        · obtain rfl := Option.some_inj.mp h
          rfl
        · obtain rfl := Option.some_inj.mp h
          rfl
      | Backspace =>
        simp only [App.handle_popup_input, hfoc] at h
        obtain rfl := Option.some_inj.mp h
        rfl
      | OtherKey =>
        simp only [App.handle_popup_input, hfoc] at h
        obtain rfl := Option.some_inj.mp h
        rfl

/-- Witness for C3: editing the selected `2025-03-01` entry of the sample
ledger, plus the selection-preserving popup operations. -/
theorem edit_replaces_first_literal_match_witness :
    (∃ i, i < sampleLedger.length ∧
      (∀ j, j < i → ∀ ej, sampleLedger[j]? = some ej →
        ¬(ej.date = (⟨"2025-03-01", 9⟩ : Entry).date ∧
          ej.amount = (⟨"2025-03-01", 9⟩ : Entry).amount)) ∧
      (∃ ei, sampleLedger[i]? = some ei ∧
        ei.date = (⟨"2025-03-01", 9⟩ : Entry).date ∧
        ei.amount = (⟨"2025-03-01", 9⟩ : Entry).amount) ∧
      sampleApp.edit_entries sampleLedger ⟨2025, 3, 2⟩ 10 =
        some (sampleLedger.set i ⟨Date.toIsoString ⟨2025, 3, 2⟩, 10⟩) ∧
      (∀ j, j ≠ i →
        (sampleLedger.set i (⟨Date.toIsoString ⟨2025, 3, 2⟩, 10⟩ : Entry))[j]? =
          sampleLedger[j]?)) ∧
    (sampleApp.close_popup.get_selected_entry = sampleApp.get_selected_entry ∧
      sampleApp.cycle_popup_focus.get_selected_entry = sampleApp.get_selected_entry) ∧
    ((amountApp.handle_popup_input (KeyCode.Char '3')).getD amountApp).get_selected_entry =
      amountApp.get_selected_entry :=
  ⟨edit_replaces_first_literal_match.1 sampleApp sampleLedger ⟨2025, 3, 2⟩ 10
      ⟨"2025-03-01", 9⟩ (by with_unfolding_all rfl) (by simp [sampleLedger]),
    edit_replaces_first_literal_match.2.1 sampleApp,
    edit_replaces_first_literal_match.2.2 amountApp _ (KeyCode.Char '3')
      (by with_unfolding_all rfl)⟩

/-- C9 evaluation (code bug): with an empty ledger-file list the renderer's
unconditional `year_reports[selected_year]` lookup is already out of bounds
on the first draw (a panic), and `previous` computes `files.len() - 1` as a
plain `usize` subtraction, underflowing to `2^64 - 1` (a panic in a debug
build); a ledger file with zero entries makes `select_file` underflow the
same way in `(year_reports.len() - 1).max(0)` — the `.max(0)` betrays the
intended clamp, `usize` subtraction defeats it. -/
theorem empty_panels_panic :
    uiSelectedYearPanel (App.new [] [] FormatOptions.default) = none ∧
    ((App.new [] [] FormatOptions.default).previous []).selected_file = 2 ^ 64 - 1 ∧
    (App.new [("a.csv", [])] ["a.csv"] FormatOptions.default).selected_year = 2 ^ 64 - 1 :=
  ⟨by with_unfolding_all rfl, by with_unfolding_all rfl, by with_unfolding_all rfl⟩

/-- C10 evaluation (code bug): with the date field focused and the buffer at
the nine ASCII characters "2024-09-1", typing the two-byte character `é`
makes the buffer 11 bytes long, so the handler byte-slices `value()[..10]`;
byte 10 falls inside `é`, which is a char-boundary panic in Rust — the
truncation is by bytes, not by the ten characters the claim (and the code
comment) promise, and it is not defined for every character. -/
theorem date_truncation_char_boundary_panic :
    (((sampleApp.open_add_entry_popup ⟨2024, 9, 12⟩).handle_popup_input
        KeyCode.Backspace).bind
      (fun a => a.handle_popup_input (KeyCode.Char 'é'))) = none := by
  with_unfolding_all rfl
